import Mathlib

/-!
Shallow embedding of the rendering core of the `game-of-life-webgpu`
repository: the frame-driver module (`src/unnamed/part_000`, whose single
function `updateGrid` creates the cell-state buffers, the pipeline, the two
bind groups and records one instanced draw per invocation) and the WGSL
shading stages (`src/shaders.js`, entry points `vertexMain` and
`fragmentMain`).

Machine `u32` cell states are modelled as `Nat` (all values written are 0 or
1, far from overflow); WGSL `f32` scalar arithmetic is modelled exactly over
`ℚ` (every quantity the claims mention — vertex coordinates `±0.8`, grid
dimension 32, instance indices below 1024 — is exactly representable and the
operations involved are exact at these magnitudes); WGSL `floor` is the
mathematical floor and the `%` operator on `f32` is
`e1 - e2 * trunc(e1 / e2)`.
-/

namespace GameOfLife

/-- Grid dimension, `const GRID_SIZE = 32` in the source. -/
def GRID_SIZE : Nat := 32

/-- Scheduling interval in milliseconds, `const UPDATE_INTERVAL = 200`. -/
def UPDATE_INTERVAL : Nat := 200

/-- Host loop `for (let i = 0; i < cellStateArray.length; i += 3)
cellStateArray[i] = 1;` resumed at index `i`. -/
def fillEveryThirdFrom (a : List Nat) (i : Nat) : List Nat :=
  if _h : i < a.length then fillEveryThirdFrom (a.set i 1) (i + 3) else a
termination_by a.length - i
decreasing_by simp only [List.length_set]; omega

/-- Host loop `for (let i = 0; i < cellStateArray.length; i++)
cellStateArray[i] = 1 % 2;` resumed at index `i` (the written value is the
constant expression `1 % 2`, evaluated per iteration). -/
def fillModTwoFrom (a : List Nat) (i : Nat) : List Nat :=
  if _h : i < a.length then fillModTwoFrom (a.set i (1 % 2)) (i + 1) else a
termination_by a.length - i
decreasing_by simp only [List.length_set]; omega

/-- Result of `new Uint32Array(GRID_SIZE * GRID_SIZE)`: a zero-initialized
host array with one element per grid cell. -/
def newCellStateArray (n : Nat) : List Nat := List.replicate (n * n) 0

/-- Content uploaded to the device buffer labelled `Cell State A`: the fresh
host array after the stride-3 fill loop (`device.queue.writeBuffer` snapshots
the array, so this is the device-resident content of buffer A). -/
def cellStateBufferA (n : Nat) : List Nat := fillEveryThirdFrom (newCellStateArray n) 0

/-- Content uploaded to the device buffer labelled `Cell State B`: the same
host array, reused after the buffer-A upload and overwritten by the second
fill loop. -/
def cellStateBufferB (n : Nat) : List Nat := fillModTwoFrom (cellStateBufferA n) 0

/-- A WGSL `vec2f`, with components modelled exactly over `ℚ`. -/
structure Vec2 where
  x : ℚ
  y : ℚ
deriving DecidableEq

/-- WGSL `%` on `f32` operands: `e1 - e2 * trunc(e1 / e2)` (truncation is
floor for a nonnegative quotient, ceiling for a negative one). -/
def wgslFmod (a b : ℚ) : ℚ :=
  a - b * (if 0 ≤ a / b then ((⌊a / b⌋ : ℤ) : ℚ) else ((⌈a / b⌉ : ℤ) : ℚ))

/-- Output of `vertexMain`: the `@builtin(position)` clip-space `vec4f` and
the `@location(0)` cell coordinate passed to the fragment stage. -/
structure VertexOutput where
  pos : ℚ × ℚ × ℚ × ℚ
  cell : Vec2
deriving DecidableEq

/-- The WGSL vertex stage `vertexMain` of `src/shaders.js`, line for line:
`grid` is the `@binding(0)` uniform `vec2f`, `cellState` the `@binding(1)`
storage array, `inst` the builtin instance index and `pos` the
`@location(0)` vertex position. Componentwise `vec2f` arithmetic is spelled
out; `f32(...)` casts are the `ℚ` coercions. -/
def vertexMain (grid : Vec2) (cellState : List Nat) (inst : Nat) (pos : Vec2) :
    VertexOutput :=
  let i : ℚ := inst
  let cellX : ℚ := wgslFmod i grid.x
  let cellY : ℚ := ((⌊i / grid.x⌋ : ℤ) : ℚ)
  let cell : Vec2 := ⟨cellX, cellY⟩
  let state : ℚ := (cellState.getD inst 0 : Nat)
  let cellOffset : Vec2 := ⟨cell.x / grid.x * 2, cell.y / grid.y * 2⟩
  let currentCellPos : Vec2 :=
    ⟨(pos.x * state + 1) / grid.x - 1, (pos.y * state + 1) / grid.y - 1⟩
  let gridPos : Vec2 := ⟨currentCellPos.x + cellOffset.x, currentCellPos.y + cellOffset.y⟩
  { pos := (gridPos.x, gridPos.y, 0, 1), cell := cell }

/-- The WGSL fragment stage `fragmentMain` of `src/shaders.js`: the
interpolated `cell` coordinate is divided componentwise by `grid` and emitted
as `vec4f(c, 1 - c.y, 1)`. -/
def fragmentMain (grid : Vec2) (cell : Vec2) : ℚ × ℚ × ℚ × ℚ :=
  let c : Vec2 := ⟨cell.x / grid.x, cell.y / grid.y⟩
  (c.x, c.y, 1 - c.y, 1)

/-- The cell coordinate `vertexMain` decodes from an instance index
(`shaders.js` lines 18-21): `(i % grid.x, floor(i / grid.x))`. -/
def cellCoord (grid : Vec2) (inst : Nat) : Vec2 :=
  ⟨wgslFmod (inst : ℚ) grid.x, ((⌊(inst : ℚ) / grid.x⌋ : ℤ) : ℚ)⟩

/-- Which of the two cell-state buffers a bind group reads (the source labels
them `Cell State A` and `Cell State B`). -/
inductive BufferId
  | A
  | B
deriving DecidableEq

/-- The buffer bound at `@binding(1)` of `bindGroups[idx]`: `bindGroups[0]`
(label `Cell renderer bind group A`) binds `cellStateStorageBuffers[0]`,
`bindGroups[1]` binds `cellStateStorageBuffers[1]`. -/
def bindGroupBufferId (idx : Nat) : BufferId := if idx = 0 then .A else .B

/-- The device-resident contents of the state buffer read through
`bindGroups[idx]`. -/
def bindGroupStateBuffer (idx : Nat) : List Nat :=
  if idx = 0 then cellStateBufferA GRID_SIZE else cellStateBufferB GRID_SIZE

/-- The `vertices` Float32Array: two triangles covering `[-0.8, 0.8]²`. -/
def vertices : List ℚ :=
  [-4/5, -4/5, 4/5, -4/5, 4/5, 4/5, -4/5, -4/5, -4/5, 4/5, 4/5, 4/5]

/-- The `gridSizeUniformArray` Float32Array `[GRID_SIZE, GRID_SIZE]`. -/
def gridSizeUniformArray : List ℚ := [(GRID_SIZE : ℚ), (GRID_SIZE : ℚ)]

/-- Everything a successful invocation records into its command buffer and
submits: render-pass clear color, vertex-buffer data, uniform data, the bind
group selected for the draw (index, label, and the state-buffer contents it
exposes at `@binding(1)`), and the two arguments of `renderPass.draw`. -/
structure Frame where
  clearColor : ℚ × ℚ × ℚ × ℚ
  vertexData : List ℚ
  uniformData : List ℚ
  bindGroupIndex : Nat
  stateBufferLabel : BufferId
  stateBuffer : List Nat
  vertexCount : Nat
  instanceCount : Nat
deriving DecidableEq

/-- Observable effects of one `updateGrid()` invocation: the module-level
`step` counter after the call, how many render pipelines, bind groups and
cell-state storage buffers this invocation created (with matching
`writeBuffer` uploads), and the submitted frame, if any. -/
structure InvocationResult where
  stepAfter : Nat
  pipelinesAssembled : Nat
  bindGroupsCreated : Nat
  stateBuffersAllocated : Nat
  stateBufferUploads : Nat
  submitted : Option Frame
deriving DecidableEq

/-- One invocation of `updateGrid` (`part_000` lines 23-201). `stepBefore`
is the module-level `step` on entry; the function increments it first
(line 24). All resource creation — the two state storage buffers and their
uploads, the uniform and vertex buffers, the shader module, the render
pipeline, the two bind groups — happens inside the call, before
`context.getCurrentTexture()` (line 175). `surfaceAvailable` models whether
that acquisition succeeds; when it fails the invocation throws out of the
function and nothing is submitted. On success the draw uses
`bindGroups[step % 2]` with `step` already incremented, and draws
`vertices.length / 2` vertices and `GRID_SIZE * GRID_SIZE` instances. -/
def updateGrid (stepBefore : Nat) (surfaceAvailable : Bool) : InvocationResult :=
  let step := stepBefore + 1
  { stepAfter := step
    pipelinesAssembled := 1
    bindGroupsCreated := 2
    stateBuffersAllocated := 2
    stateBufferUploads := 2
    submitted :=
      if surfaceAvailable then
        some
          { clearColor := (0, 0, 2/5, 1)
            vertexData := vertices
            uniformData := gridSizeUniformArray
            bindGroupIndex := step % 2
            stateBufferLabel := bindGroupBufferId (step % 2)
            stateBuffer := bindGroupStateBuffer (step % 2)
            vertexCount := vertices.length / 2
            instanceCount := GRID_SIZE * GRID_SIZE }
      else none }

/-- Cumulative totals over the driver's whole run. -/
structure DriverTotals where
  step : Nat
  submissions : Nat
  pipelinesAssembled : Nat
  bindGroupsCreated : Nat
  stateBuffersAllocated : Nat
  stateBufferUploads : Nat
deriving DecidableEq

/-- The scheduler (`setInterval(updateGrid, UPDATE_INTERVAL)`) invoking
`updateGrid` `m` times, every acquisition succeeding, starting from the
initial module state `step = 0`. -/
def runDriver : Nat → DriverTotals
  | 0 => ⟨0, 0, 0, 0, 0, 0⟩
  | m + 1 =>
    let t := runDriver m
    let r := updateGrid t.step true
    ⟨r.stepAfter, t.submissions + (if (r.submitted).isSome then 1 else 0),
      t.pipelinesAssembled + r.pipelinesAssembled,
      t.bindGroupsCreated + r.bindGroupsCreated,
      t.stateBuffersAllocated + r.stateBuffersAllocated,
      t.stateBufferUploads + r.stateBufferUploads⟩

/-- The two arguments of `renderPass.draw` (line 192), with the configured
grid dimension as a parameter: `vertices.length / 2` vertices and `n * n`
instances. -/
def drawArgs (n : Nat) : Nat × Nat := (vertices.length / 2, n * n)

/-- The normalized-device-coordinate interval cell column (or row) `c` of an
`N`-cell axis occupies: `[2c/N - 1, 2(c+1)/N - 1]`. -/
def cellSlot (N c : Nat) : Set ℚ :=
  Set.Icc (2 * (c : ℚ) / N - 1) (2 * ((c : ℚ) + 1) / N - 1)

/-! ### Supporting lemmas -/

theorem fillEveryThirdFrom_getElem? (a : List Nat) (i k : Nat) :
    (fillEveryThirdFrom a i)[k]? =
      if i ≤ k ∧ k < a.length ∧ (k - i) % 3 = 0 then some 1 else a[k]? := by
  induction a, i using fillEveryThirdFrom.induct with
  | case1 a i h ih =>
    rw [fillEveryThirdFrom]
    simp only [h, dif_pos, ih, List.length_set, List.getElem?_set]
    split_ifs <;> simp_all <;> omega
  | case2 a i h =>
    rw [fillEveryThirdFrom, dif_neg h, if_neg (by omega)]

theorem fillModTwoFrom_getElem? (a : List Nat) (i k : Nat) :
    (fillModTwoFrom a i)[k]? =
      if i ≤ k ∧ k < a.length then some (1 % 2) else a[k]? := by
  induction a, i using fillModTwoFrom.induct with
  | case1 a i h ih =>
    rw [fillModTwoFrom]
    simp only [h, dif_pos, ih, List.length_set, List.getElem?_set]
    split_ifs <;> simp_all <;> omega
  | case2 a i h =>
    rw [fillModTwoFrom, dif_neg h, if_neg (by omega)]

theorem cellStateBufferA_getElem? (n i : Nat) (hi : i < n * n) :
    (cellStateBufferA n)[i]? = some (if i % 3 = 0 then 1 else 0) := by
  simp only [cellStateBufferA, newCellStateArray, fillEveryThirdFrom_getElem?,
    List.length_replicate, List.getElem?_replicate]
  split_ifs <;> simp_all <;> omega

theorem cellStateBufferA_length (n : Nat) : (cellStateBufferA n).length = n * n := by
  have h : ∀ a i, (fillEveryThirdFrom a i).length = a.length := by
    intro a i
    induction a, i using fillEveryThirdFrom.induct with
    | case1 a i h ih => rw [fillEveryThirdFrom]; simpa [h, List.length_set] using ih
    | case2 a i h => rw [fillEveryThirdFrom]; simp [h]
  simp [cellStateBufferA, newCellStateArray, h]

theorem cellStateBufferB_getElem? (n i : Nat) (hi : i < n * n) :
    (cellStateBufferB n)[i]? = some 1 := by
  simp only [cellStateBufferB, fillModTwoFrom_getElem?, cellStateBufferA_length]
  split_ifs <;> simp_all

theorem vertexMain_cell (grid : Vec2) (cellState : List Nat) (inst : Nat) (pos : Vec2) :
    (vertexMain grid cellState inst pos).cell = cellCoord grid inst := rfl

theorem floor_natCast_div (i N : Nat) :
    ⌊(i : ℚ) / (N : ℚ)⌋ = ((i / N : Nat) : ℤ) := by
  have h0 : (0 : ℚ) ≤ (i : ℚ) / (N : ℚ) := by positivity
  rw [← Int.natCast_floor_eq_floor h0, Nat.floor_div_eq_div]

theorem wgslFmod_natCast (i N : Nat) :
    wgslFmod (i : ℚ) (N : ℚ) = ((i % N : Nat) : ℚ) := by
  unfold wgslFmod
  have h0 : (0 : ℚ) ≤ (i : ℚ) / (N : ℚ) := by positivity
  rw [if_pos h0, floor_natCast_div, Int.cast_natCast]
  have hmd : i % N + N * (i / N) = i := Nat.mod_add_div i N
  have hq : ((i % N : Nat) : ℚ) + (N : ℚ) * ((i / N : Nat) : ℚ) = (i : ℚ) := by
    exact_mod_cast congrArg (Nat.cast : Nat → ℚ) hmd
  linarith

/-- The decoded coordinate over naturals: for any instance index the shader
computes exactly `(i mod N, i div N)`. -/
theorem cellCoord_eq_nat (N i : Nat) :
    cellCoord ⟨(N : ℚ), (N : ℚ)⟩ i = ⟨((i % N : Nat) : ℚ), ((i / N : Nat) : ℚ)⟩ := by
  simp only [cellCoord, wgslFmod_natCast, floor_natCast_div, Int.cast_natCast]

/-- Closed form of the clip-space position computed by `vertexMain` on a
square grid, with the decode bridged to natural `mod` and `div`. -/
theorem vertexMain_pos_eq (N : Nat) (st : List Nat) (i : Nat) (p : Vec2) :
    (vertexMain ⟨(N : ℚ), (N : ℚ)⟩ st i p).pos =
      ((p.x * (st.getD i 0 : ℚ) + 1) / N - 1 + (((i % N : Nat) : ℚ) / N) * 2,
       (p.y * (st.getD i 0 : ℚ) + 1) / N - 1 + (((i / N : Nat) : ℚ) / N) * 2,
       0, 1) := by
  simp only [vertexMain, wgslFmod_natCast, floor_natCast_div, Int.cast_natCast]

/-- Two cells of the same axis whose local points map to the same
normalized coordinate are the same cell: the per-cell offsets are `2/N`
apart while the in-slot spread is at most `1.6/N`. -/
theorem slot_sep (N : Nat) (hN : 0 < N) (c c' : Nat) (u v : ℚ)
    (hu1 : -(4/5) ≤ u) (hu2 : u ≤ 4/5) (hv1 : -(4/5) ≤ v) (hv2 : v ≤ 4/5)
    (heq : (u + 1) / (N : ℚ) - 1 + ((c : ℚ) / N) * 2 =
      (v + 1) / (N : ℚ) - 1 + ((c' : ℚ) / N) * 2) :
    c = c' := by
  have hN' : (0 : ℚ) < N := by exact_mod_cast hN
  have h2 : u + 2 * (c : ℚ) = v + 2 * (c' : ℚ) := by
    field_simp at heq
    linarith
  by_contra hne
  rcases Nat.lt_or_ge c c' with hlt | hge
  · have hcc : ((c : ℚ)) + 1 ≤ (c' : ℚ) := by exact_mod_cast Nat.succ_le_of_lt hlt
    linarith
  · have hlt : c' < c := by omega
    have hcc : ((c' : ℚ)) + 1 ≤ (c : ℚ) := by exact_mod_cast Nat.succ_le_of_lt hlt
    linarith

/-- The decode is injective. -/
theorem decode_inj (N i j : Nat) (hx : i % N = j % N) (hy : i / N = j / N) :
    i = j :=
  calc i = N * (i / N) + i % N := (Nat.div_add_mod i N).symm
    _ = N * (j / N) + j % N := by rw [hx, hy]
    _ = j := Nat.div_add_mod j N

/-- One axis of the emitted position stays inside `[-1, 1]` whenever the
local coordinate is in the quad's span and the state scale is in `[0, 1]`. -/
theorem coord_in_range (N : Nat) (hN : 0 < N) (c : Nat) (hc : c < N)
    (u s : ℚ) (hu1 : -(4/5) ≤ u) (hu2 : u ≤ 4/5) (hs0 : 0 ≤ s) (hs1 : s ≤ 1) :
    -1 ≤ (u * s + 1) / (N : ℚ) - 1 + (((c : ℚ)) / N) * 2 ∧
      (u * s + 1) / (N : ℚ) - 1 + (((c : ℚ)) / N) * 2 ≤ 1 := by
  have hN' : (0 : ℚ) < N := by exact_mod_cast hN
  have hcN : (c : ℚ) + 1 ≤ N := by exact_mod_cast Nat.succ_le_of_lt hc
  have hc0 : (0 : ℚ) ≤ (c : ℚ) := Nat.cast_nonneg c
  have ha1 : -(4/5) ≤ u * s := by nlinarith
  have ha2 : u * s ≤ 4/5 := by nlinarith
  have heq : (u * s + 1) / (N : ℚ) - 1 + (((c : ℚ)) / N) * 2
      = (u * s + 1 + 2 * c) / N - 1 := by ring
  rw [heq]
  constructor
  · have h0 : 0 ≤ (u * s + 1 + 2 * (c : ℚ)) / N :=
      div_nonneg (by linarith) hN'.le
    linarith
  · have h2 : (u * s + 1 + 2 * (c : ℚ)) / N ≤ 2 := by
      rw [div_le_iff₀ hN']
      linarith
    linarith

/-- Each cell slot lies inside the normalized device coordinate range. -/
theorem cellSlot_subset (N : Nat) (hN : 0 < N) (c : Nat) (hc : c < N) :
    cellSlot N c ⊆ Set.Icc (-1 : ℚ) 1 := by
  intro x hx
  obtain ⟨h1, h2⟩ := hx
  have hN' : (0 : ℚ) < N := by exact_mod_cast hN
  have hcN : (c : ℚ) + 1 ≤ N := by exact_mod_cast Nat.succ_le_of_lt hc
  have hc0 : (0 : ℚ) ≤ (c : ℚ) := Nat.cast_nonneg c
  constructor
  · have h3 : (0 : ℚ) ≤ 2 * (c : ℚ) / N := by positivity
    linarith
  · have h3 : 2 * ((c : ℚ) + 1) / N ≤ 2 := by
      rw [div_le_iff₀ hN']
      linarith
    linarith

/-- The `N` cell slots cover the normalized device coordinate range. -/
theorem cellSlot_cover (N : Nat) (hN : 0 < N) (x : ℚ) (hx1 : -1 ≤ x) (hx2 : x ≤ 1) :
    ∃ c, c < N ∧ x ∈ cellSlot N c := by
  have hN' : (0 : ℚ) < N := by exact_mod_cast hN
  set t : ℚ := (x + 1) * N / 2 with ht
  have hx1' : (0 : ℚ) ≤ x + 1 := by linarith
  have ht0 : 0 ≤ t := by
    rw [ht]
    exact div_nonneg (mul_nonneg hx1' hN'.le) (by norm_num)
  have h2t : 2 * t = (x + 1) * N := by rw [ht]; ring
  by_cases hcase : ⌊t⌋₊ < N
  · have hfl : ((⌊t⌋₊ : ℕ) : ℚ) ≤ t := Nat.floor_le ht0
    have hfu : t < ((⌊t⌋₊ : ℕ) : ℚ) + 1 := Nat.lt_floor_add_one t
    refine ⟨⌊t⌋₊, hcase, ?_, ?_⟩
    · rw [sub_le_iff_le_add, div_le_iff₀ hN']
      linarith
    · rw [le_sub_iff_add_le, le_div_iff₀ hN']
      linarith
  · have hge : (N : ℚ) ≤ t := by
      have h1 : (N : ℚ) ≤ ((⌊t⌋₊ : ℕ) : ℚ) := by exact_mod_cast Nat.le_of_not_lt hcase
      calc (N : ℚ) ≤ ((⌊t⌋₊ : ℕ) : ℚ) := h1
        _ ≤ t := Nat.floor_le ht0
    have hx' : (1 : ℚ) ≤ x := by
      have := le_of_mul_le_mul_right (by linarith : 2 * (N : ℚ) ≤ (x + 1) * N) hN'
      linarith
    have hxeq : x = 1 := le_antisymm hx2 hx'
    have hN1 : ((N - 1 : ℕ) : ℚ) = (N : ℚ) - 1 := by
      have h1 : (1 : ℕ) ≤ N := hN
      push_cast [Nat.cast_sub h1]
      ring
    refine ⟨N - 1, by omega, ?_, ?_⟩
    · rw [hN1, hxeq, sub_le_iff_le_add, div_le_iff₀ hN']
      linarith
    · rw [hN1, hxeq]
      have h3 : 2 * ((N : ℚ) - 1 + 1) / N = 2 := by field_simp
      rw [h3]
      linarith

/-! ### Claim theorems -/

/-- Claim C1, counterexample: at invocation `k = 0` (0-indexed) the frame's
draw uses `bindGroups[1]`, whose bind group reads buffer B — not buffer A as
the claim states — because `step` is incremented before `bindGroups[step % 2]`
is selected. -/
theorem C1_counterexample :
    Option.map Frame.stateBufferLabel ((updateGrid 0 true).submitted) = some BufferId.B ∧
    BufferId.B ≠ BufferId.A :=
  ⟨rfl, by decide⟩

/-- Claim C1 amended: invocation `k` (0-indexed) selects the binding set
reading buffer B when `k` is even and buffer A when `k` is odd — the parity
is inverted relative to the claim, since the counter is incremented before
the selection, so the draw reads `bindGroups[(k + 1) % 2]`. -/
theorem C1_amended_parity_selection (k : Nat) :
    Option.map Frame.stateBufferLabel ((updateGrid k true).submitted) =
      some (if k % 2 = 0 then BufferId.B else BufferId.A) ∧
    Option.map Frame.stateBuffer ((updateGrid k true).submitted) =
      some (if k % 2 = 0 then cellStateBufferB GRID_SIZE
            else cellStateBufferA GRID_SIZE) := by
  rcases Nat.mod_two_eq_zero_or_one k with h | h
  · have h1 : (k + 1) % 2 = 1 := by omega
    simp [updateGrid, h1, h, bindGroupBufferId, bindGroupStateBuffer]
  · have h1 : (k + 1) % 2 = 0 := by omega
    simp [updateGrid, h1, h, bindGroupBufferId, bindGroupStateBuffer]

/-- Claim C2, counterexample: nothing is assembled before the first frame
and every invocation assembles its own pipeline, so after two invocations
the total number of pipeline assemblies is 2, not the claimed single one. -/
theorem C2_counterexample :
    (runDriver 2).pipelinesAssembled = 2 ∧ (2 : Nat) ≠ 1 :=
  ⟨rfl, by decide⟩

/-- Claim C2 amended: there is no setup phase — every `updateGrid`
invocation re-assembles the render pipeline, re-creates both bind groups and
re-allocates and re-uploads both state buffers. `M` invocations (all with the
surface available) issue `M` draw submissions, `M` pipeline assemblies,
`2 * M` bind-group creations and `2 * M` state-buffer allocations and
uploads, with the step counter ending at `M`. -/
theorem C2_amended_per_invocation_reassembly (M : Nat) :
    runDriver M = ⟨M, M, M, 2 * M, 2 * M, 2 * M⟩ := by
  induction M with
  | zero => rfl
  | succ m ih =>
    simp only [runDriver, ih, updateGrid]
    refine DriverTotals.mk.injEq .. ▸ ?_
    norm_num
    omega

/-- Claim C3, the code evaluated at the failing input: the device-resident
content of buffer B at index 0 is 1 even though `0 % 2 = 0` — the fill loop
writes the constant `1 % 2` instead of `i % 2`, so buffer B is all ones and
the declared alternating pattern is not produced. -/
theorem C3_bufferB_not_alternating :
    (cellStateBufferB GRID_SIZE)[0]? = some 1 ∧ (0 : Nat) % 2 = 0 :=
  ⟨cellStateBufferB_getElem? GRID_SIZE 0 (by norm_num [GRID_SIZE]), rfl⟩

/-- Claim C4: after initialization, device buffer A holds 1 exactly at the
indices divisible by 3 and 0 elsewhere; the later reuse of the same host
array to fill buffer B does not disturb it — at index 1 buffer A still reads
0 while the reused (re-filled) host array, i.e. buffer B's content, reads 1,
exhibiting that the upload was a deep copy and not a live reference. -/
theorem C4_bufferA_pattern :
    (∀ i, i < GRID_SIZE * GRID_SIZE →
      (cellStateBufferA GRID_SIZE)[i]? = some (if i % 3 = 0 then 1 else 0)) ∧
    (cellStateBufferA GRID_SIZE)[1]? = some 0 ∧
    (cellStateBufferB GRID_SIZE)[1]? = some 1 := by
  refine ⟨fun i hi => cellStateBufferA_getElem? GRID_SIZE i hi, ?_, ?_⟩
  · simpa using cellStateBufferA_getElem? GRID_SIZE 1 (by norm_num [GRID_SIZE])
  · exact cellStateBufferB_getElem? GRID_SIZE 1 (by norm_num [GRID_SIZE])

/-- Witness for C4 at the concrete index 6. -/
theorem C4_bufferA_pattern_witness :
    (cellStateBufferA GRID_SIZE)[6]? = some 1 := by
  simpa using C4_bufferA_pattern.1 6 (by norm_num [GRID_SIZE])

/-- Claim C5: each draw submits `n * n` instances, and over `[0, N * N)` the
shader's decode `i ↦ (i mod N, ⌊i / N⌋)` lands in `{0..N-1} × {0..N-1}` and
round-trips with `(x, y) ↦ y * N + x`, hence is injective and covers the
whole grid. -/
theorem C5_instance_decode_bijection (N : Nat) (hN : 0 < N) :
    (drawArgs N).2 = N * N ∧
    (∀ i, i < N * N →
      cellCoord ⟨(N : ℚ), (N : ℚ)⟩ i = ⟨((i % N : Nat) : ℚ), ((i / N : Nat) : ℚ)⟩ ∧
      i % N < N ∧ i / N < N ∧ (i / N) * N + (i % N) = i) ∧
    (∀ x y, x < N → y < N →
      cellCoord ⟨(N : ℚ), (N : ℚ)⟩ (y * N + x) = ⟨(x : ℚ), (y : ℚ)⟩) := by
  refine ⟨rfl, fun i hi => ⟨cellCoord_eq_nat N i, Nat.mod_lt _ hN, ?_, ?_⟩,
    fun x y hx hy => ?_⟩
  · exact (Nat.div_lt_iff_lt_mul hN).2 hi
  · rw [Nat.mul_comm]
    exact Nat.div_add_mod i N
  · have h1 : (y * N + x) % N = x := by
      rw [Nat.add_comm, Nat.add_mul_mod_self_right, Nat.mod_eq_of_lt hx]
    have h2 : (y * N + x) / N = y := by
      rw [Nat.add_comm, Nat.add_mul_div_right _ _ hN, Nat.div_eq_of_lt hx, Nat.zero_add]
    rw [cellCoord_eq_nat, h1, h2]

/-- Witness for C5 at `N = 2`, instance 3 (the spec's own scenario: instance
3 decodes to cell (1, 1)). -/
theorem C5_witness :
    (0 : Nat) < 2 ∧ cellCoord ⟨(2 : ℚ), (2 : ℚ)⟩ 3 = ⟨(1 : ℚ), (1 : ℚ)⟩ := by
  refine ⟨by decide, ?_⟩
  simpa using ((C5_instance_decode_bijection 2 (by decide)).2.1 3 (by decide)).1

/-- Claim C6: for every instance `i` and input position `p`, the vertex
stage outputs clip-space position
`((p*s + 1)/(N,N) - 1) + 2*(cellX,cellY)/(N,N)` with `z = 0`, `w = 1`, where
`s` is the state read at `i`, `cellX = i mod N`, `cellY = ⌊i / N⌋`; and when
`s = 0` every input position of the instance maps to the same point, so the
cell degenerates rather than being absent. -/
theorem C6_vertex_position (N : Nat) (hN : 0 < N) (st : List Nat) (i : Nat)
    (hi : i < N * N) (p : Vec2) :
    (vertexMain ⟨(N : ℚ), (N : ℚ)⟩ st i p).pos =
      ((p.x * (st.getD i 0 : ℚ) + 1) / N - 1 + 2 * ((i % N : Nat) : ℚ) / N,
       (p.y * (st.getD i 0 : ℚ) + 1) / N - 1 + 2 * ((i / N : Nat) : ℚ) / N,
       0, 1) ∧
    (st.getD i 0 = 0 → ∀ q : Vec2,
      (vertexMain ⟨(N : ℚ), (N : ℚ)⟩ st i p).pos =
        (vertexMain ⟨(N : ℚ), (N : ℚ)⟩ st i q).pos) := by
  constructor
  · rw [vertexMain_pos_eq, Prod.mk.injEq, Prod.mk.injEq, Prod.mk.injEq]
    refine ⟨by ring, by ring, rfl, rfl⟩
  · intro h0 q
    rw [vertexMain_pos_eq, vertexMain_pos_eq, h0]
    simp only [Nat.cast_zero, mul_zero]

/-- Witness for C6 at `N = 2`, buffer `[1, 0, 1, 1]`, instance 3, corner
position `(0.8, 0.8)`: the emitted clip position is `(9/10, 9/10, 0, 1)`. -/
theorem C6_vertex_position_witness :
    (vertexMain ⟨((2 : Nat) : ℚ), ((2 : Nat) : ℚ)⟩ [1, 0, 1, 1] 3 ⟨4/5, 4/5⟩).pos =
      (9/10, 9/10, 0, 1) := by
  have h := (C6_vertex_position 2 (by norm_num) [1, 0, 1, 1] 3 (by norm_num)
    ⟨4/5, 4/5⟩).1
  have hg : [1, 0, 1, 1].getD 3 0 = 1 := rfl
  rw [h, hg]
  norm_num

/-- Claim C7: the fixed 6-vertex quad spans `[-0.8, 0.8]` on both axes;
distinct instances with active state occupy disjoint clip-space regions;
every emitted position lies inside `[-1, 1] × [-1, 1]`; and the per-cell
slots cover `[-1, 1]` exactly on each axis (so the `N * N` slots tile the
full normalized range). -/
theorem C7_cells_tile_disjointly (N : Nat) (hN : 0 < N) :
    (∀ r ∈ vertices, -(4/5 : ℚ) ≤ r ∧ r ≤ 4/5) ∧
    ((-(4/5) : ℚ) ∈ vertices ∧ (4/5 : ℚ) ∈ vertices) ∧
    (∀ (st : List Nat) (i j : Nat) (p q : Vec2),
      i < N * N → j < N * N → i ≠ j →
      st.getD i 0 = 1 → st.getD j 0 = 1 →
      -(4/5) ≤ p.x → p.x ≤ 4/5 → -(4/5) ≤ p.y → p.y ≤ 4/5 →
      -(4/5) ≤ q.x → q.x ≤ 4/5 → -(4/5) ≤ q.y → q.y ≤ 4/5 →
      (vertexMain ⟨(N : ℚ), (N : ℚ)⟩ st i p).pos ≠
        (vertexMain ⟨(N : ℚ), (N : ℚ)⟩ st j q).pos) ∧
    (∀ (st : List Nat) (i : Nat) (p : Vec2),
      i < N * N → st.getD i 0 ≤ 1 →
      -(4/5) ≤ p.x → p.x ≤ 4/5 → -(4/5) ≤ p.y → p.y ≤ 4/5 →
      (vertexMain ⟨(N : ℚ), (N : ℚ)⟩ st i p).pos.1 ∈ Set.Icc (-1 : ℚ) 1 ∧
      (vertexMain ⟨(N : ℚ), (N : ℚ)⟩ st i p).pos.2.1 ∈ Set.Icc (-1 : ℚ) 1) ∧
    (∀ c, c < N → cellSlot N c ⊆ Set.Icc (-1 : ℚ) 1) ∧
    (∀ x ∈ Set.Icc (-1 : ℚ) 1, ∃ c, c < N ∧ x ∈ cellSlot N c) := by
  refine ⟨?_, ⟨by norm_num [vertices], by norm_num [vertices]⟩, ?_, ?_,
    fun c hc => cellSlot_subset N hN c hc,
    fun x hx => cellSlot_cover N hN x hx.1 hx.2⟩
  · intro r hr
    simp only [vertices] at hr
    fin_cases hr <;> norm_num
  · intro st i j p q hi hj hij hsi hsj hpx1 hpx2 hpy1 hpy2 hqx1 hqx2 hqy1 hqy2 heq
    rw [vertexMain_pos_eq, vertexMain_pos_eq, hsi, hsj] at heq
    simp only [Nat.cast_one, mul_one, Prod.mk.injEq] at heq
    obtain ⟨h1, h2, -, -⟩ := heq
    exact hij (decode_inj N i j
      (slot_sep N hN _ _ _ _ hpx1 hpx2 hqx1 hqx2 h1)
      (slot_sep N hN _ _ _ _ hpy1 hpy2 hqy1 hqy2 h2))
  · intro st i p hi hsle hpx1 hpx2 hpy1 hpy2
    rw [vertexMain_pos_eq]
    have hs0 : (0 : ℚ) ≤ (st.getD i 0 : ℚ) := Nat.cast_nonneg _
    have hs1 : (st.getD i 0 : ℚ) ≤ 1 := by exact_mod_cast hsle
    constructor
    · exact coord_in_range N hN (i % N) (Nat.mod_lt _ hN) p.x _ hpx1 hpx2 hs0 hs1
    · exact coord_in_range N hN (i / N) ((Nat.div_lt_iff_lt_mul hN).2 hi) p.y _
        hpy1 hpy2 hs0 hs1

/-- Witness for C7: at `N = 2` with all cells active, instances 0 and 1 map
the same local corner to different clip positions. -/
theorem C7_cells_tile_disjointly_witness :
    (vertexMain ⟨((2 : Nat) : ℚ), ((2 : Nat) : ℚ)⟩ [1, 1, 1, 1] 0 ⟨4/5, 4/5⟩).pos ≠
      (vertexMain ⟨((2 : Nat) : ℚ), ((2 : Nat) : ℚ)⟩ [1, 1, 1, 1] 1 ⟨4/5, 4/5⟩).pos :=
  (C7_cells_tile_disjointly 2 (by norm_num)).2.2.1 [1, 1, 1, 1] 0 1
    ⟨4/5, 4/5⟩ ⟨4/5, 4/5⟩
    (by norm_num) (by norm_num) (by norm_num) rfl rfl
    (by norm_num) (by norm_num) (by norm_num) (by norm_num)
    (by norm_num) (by norm_num) (by norm_num) (by norm_num)

/-- Claim C8: the fragment stage output is exactly
`(cellX / gridWidth, cellY / gridHeight, 1 - cellY / gridHeight, 1)`; the
definition consumes only the interpolated cell coordinate and the grid
uniform, so the color depends on nothing else (in particular not on the
`cellState` binding, which `fragmentMain` never references). -/
theorem C8_fragment_gradient (grid cell : Vec2) :
    fragmentMain grid cell =
      (cell.x / grid.x, cell.y / grid.y, 1 - cell.y / grid.y, 1) := rfl

/-- Claim C9: when surface acquisition fails during an invocation, nothing
is submitted; the `step` counter — the module's only durable mutable state —
keeps its already-incremented value; and the next scheduled invocation (with
the surface available again) submits normally and increments the counter
again. Numbering invocations so that invocation `k` is the one that raises
the counter to `k`, the failed invocation `k` leaves the counter reading `k`
and invocation `k + 1` proceeds. -/
theorem C9_surface_failure_skips_step (k : Nat) :
    (updateGrid k false).submitted = none ∧
    (updateGrid k false).stepAfter = k + 1 ∧
    ((updateGrid (k + 1) true).submitted).isSome = true ∧
    (updateGrid (k + 1) true).stepAfter = k + 2 :=
  ⟨rfl, rfl, rfl, rfl⟩

/-- Claim C10: any two successful invocations whose 0-indexed positions have
equal parity record and submit identical frames — same clear color, vertex
data, uniform data, selected bind group and state-buffer contents, and draw
arguments; the submitted frame is a function of step parity alone. -/
theorem C10_frame_pure_in_parity (j k : Nat) (h : j % 2 = k % 2) :
    (updateGrid j true).submitted = (updateGrid k true).submitted := by
  have h2 : (j + 1) % 2 = (k + 1) % 2 := by omega
  simp [updateGrid, h2]

/-- Witness for C10 at invocations 1 and 3. -/
theorem C10_frame_pure_in_parity_witness :
    (1 : Nat) % 2 = 3 % 2 ∧
    (updateGrid 1 true).submitted = (updateGrid 3 true).submitted :=
  ⟨by decide, C10_frame_pure_in_parity 1 3 (by decide)⟩

end GameOfLife
